import Mathlib

/-
Shallow embedding of the ActivTrack desktop agent
(src/desktop-agents/python-agent/agent.py).

Machine integers and wall-clock times are modelled as Int (Python floats
are used only for second-granularity comparisons against the constants
60 and 120, so integer times suffice and subtraction is exact).
Python dicts keyed by strings are modelled as association lists whose
key lists are duplicate-free (a Python dict can never hold a duplicate
key); Python sets are modelled as lists used only through membership.
External effects (HTTP posts, process termination, notifications) are
modelled as explicit inputs (oracles) and outputs (action traces).
-/

namespace ActivTrack

/-- Boolean test that the first character list is a prefix of the second. -/
def listIsPrefixOf : List Char → List Char → Bool
  | [], _ => true
  | _ :: _, [] => false
  | a :: as, b :: bs => a == b && listIsPrefixOf as bs

/-- Boolean test that the first character list occurs as a contiguous
substring of the second. -/
def listContainsSub (needle : List Char) : List Char → Bool
  | [] => listIsPrefixOf needle []
  | c :: cs => listIsPrefixOf needle (c :: cs) || listContainsSub needle cs

/-- The substring containment test of Python, `needle in hay`, on strings. -/
def strContains (hay needle : String) : Bool :=
  listContainsSub needle.data hay.data

/-- The str.lower of Python applied character by character (the process and
policy names involved are ASCII, where this coincides with Python). -/
def strLower (s : String) : String :=
  ⟨s.data.map Char.toLower⟩

/-- One entry of a process snapshot: the fields of a psutil process record
that the enforcement code reads (agent.py, get_running_applications). -/
structure ProcessInfo where
  pid : Nat
  name : String
  deriving DecidableEq, Repr

/-- One value of the restricted_app_timers dict (agent.py line 414):
start timestamp, pid, lowercased process name and the warned flag. -/
structure TimerInfo where
  start_time : Int
  pid : Nat
  name : String
  warned : Bool
  deriving DecidableEq, Repr

/-- Domain events put on the event queue by check_restricted_apps
(agent.py lines 422 and 456); the wall-clock timestamp string attached in
Python is not represented because no claim depends on it. -/
inductive DomainEvent where
  | restricted_app_detected (app_name : String) (pid : Nat)
  | restricted_app_terminated (app_name : String) (pid : Nat)
  deriving DecidableEq, Repr

/-- The timer-map key string built at agent.py line 408. -/
def mkKey (pid : Nat) (app_name : String) : String :=
  Nat.repr pid ++ ":" ++ app_name

/-- Membership test of a key in the timer dict (`key in self.restricted_app_timers`). -/
def dictContains (d : List (String × TimerInfo)) (k : String) : Bool :=
  d.any (fun kv => kv.1 == k)

/-- Accumulator of the detection loop of check_restricted_apps
(agent.py lines 396 to 427): the timer dict, the running_restricted_apps
set (as a list used through membership) and the detection events queued. -/
structure DetectAcc where
  timers : List (String × TimerInfo)
  matched : List String
  events : List DomainEvent
  deriving DecidableEq, Repr

/-- Body of the inner restricted-name loop (agent.py lines 403 to 427) for
one app and one restricted name, both already lowercased. -/
def detectOne (now : Int) (pid : Nat) (app_name : String) (acc : DetectAcc)
    (restricted_name : String) : DetectAcc :=
  if strContains app_name restricted_name then
    if dictContains acc.timers (mkKey pid app_name) then
      { acc with matched := acc.matched ++ [mkKey pid app_name] }
    else
      { timers := acc.timers ++ [(mkKey pid app_name, ⟨now, pid, app_name, false⟩)],
        matched := acc.matched ++ [mkKey pid app_name],
        events := acc.events ++ [DomainEvent.restricted_app_detected app_name pid] }
  else acc

/-- The inner loop over the restricted list for one snapshot entry
(agent.py lines 403 to 427); app_name is already lowercased, each
restricted name is lowercased at the loop head (line 404). -/
def detectList (restricted : List String) (now : Int) (pid : Nat) (app_name : String)
    (acc : DetectAcc) : DetectAcc :=
  match restricted with
  | [] => acc
  | r :: rs => detectList rs now pid app_name (detectOne now pid app_name acc (strLower r))

/-- The outer loop over the snapshot (agent.py lines 399 to 427); each
app name is lowercased at line 400. -/
def detectPhase (restricted : List String) (now : Int) (apps : List ProcessInfo)
    (acc : DetectAcc) : DetectAcc :=
  match apps with
  | [] => acc
  | a :: as => detectPhase restricted now as (detectList restricted now a.pid (strLower a.name) acc)

/-- The keys a given restricted list matches against one snapshot entry,
mirroring the matches contributed by the inner loop of detectList. -/
def appMatched (restricted : List String) (pid : Nat) (app_name : String) : List String :=
  match restricted with
  | [] => []
  | r :: rs =>
      (if strContains app_name (strLower r) then [mkKey pid app_name] else []) ++
        appMatched rs pid app_name

/-- The running_restricted_apps set a tick computes from a snapshot:
all keys of snapshot entries whose lowercased name contains some
lowercased restricted name. -/
def snapshotMatched (restricted : List String) (apps : List ProcessInfo) : List String :=
  match apps with
  | [] => []
  | a :: as => appMatched restricted a.pid (strLower a.name) ++ snapshotMatched restricted as

/-- The in-place warned update of the timer loop (agent.py lines 440 to 445):
set warned once elapsed reaches 60 seconds. -/
def warnUpdate (now : Int) (ti : TimerInfo) : TimerInfo :=
  if 60 ≤ now - ti.start_time ∧ ti.warned = false then
    { ti with warned := true }
  else ti

/-- Per-entry outcome of the timer loop of check_restricted_apps
(agent.py lines 429 to 467): the entry kept in the dict after the
removals at lines 466 to 467, or none when the entry is removed (stale
key, or termination succeeded). The termination capability is the
oracle term. -/
def timerKeep (matched : List String) (now : Int) (term : Nat → String → Bool)
    (kv : String × TimerInfo) : Option (String × TimerInfo) :=
  if kv.1 ∈ matched then
    if 120 ≤ now - (warnUpdate now kv.2).start_time then
      if term (warnUpdate now kv.2).pid (warnUpdate now kv.2).name then none
      else some (kv.1, warnUpdate now kv.2)
    else some (kv.1, warnUpdate now kv.2)
  else none

/-- Per-entry event of the timer loop: restricted_app_terminated is queued
exactly when the key is matched, elapsed reached 120 seconds and the
termination capability succeeded (agent.py lines 448 to 461). -/
def timerEvent (matched : List String) (now : Int) (term : Nat → String → Bool)
    (kv : String × TimerInfo) : Option DomainEvent :=
  if kv.1 ∈ matched then
    if 120 ≤ now - (warnUpdate now kv.2).start_time ∧
        term (warnUpdate now kv.2).pid (warnUpdate now kv.2).name = true then
      some (DomainEvent.restricted_app_terminated (warnUpdate now kv.2).name
        (warnUpdate now kv.2).pid)
    else none
  else none

/-- Per-entry record of an invocation of terminate_process: the call at
agent.py line 449 happens exactly when the key is matched and elapsed
reached 120 seconds, whether or not it succeeds. -/
def timerAttempt (matched : List String) (now : Int) (kv : String × TimerInfo) :
    Option String :=
  if kv.1 ∈ matched ∧ 120 ≤ now - kv.2.start_time then some kv.1 else none

/-- The per-tick agent state that check_restricted_apps reads and writes:
the restricted list, the timer dict and the event queue contents. -/
structure AgentEnfState where
  restricted_apps : List String
  restricted_app_timers : List (String × TimerInfo)
  event_queue : List DomainEvent
  deriving DecidableEq, Repr

/-- Result of one enforcement tick: the updated state plus the trace of
timer keys for which terminate_process was invoked. -/
structure EnfTick where
  state : AgentEnfState
  attempted : List String
  deriving DecidableEq, Repr

/-- The accumulator state after the detection loop of one tick: the
detection fold started from the current timer dict, an empty
running_restricted_apps set and no queued events. -/
def tickAcc (st : AgentEnfState) (running_apps : List ProcessInfo) (now : Int) :
    DetectAcc :=
  detectPhase st.restricted_apps now running_apps ⟨st.restricted_app_timers, [], []⟩

/-- One invocation of DesktopAgent.check_restricted_apps (agent.py lines
388 to 467). The snapshot (get_running_applications), the clock
(time.time) and the termination capability are explicit inputs. An empty
restricted list returns at once (line 390). Otherwise the detection loop
runs over the snapshot, then the timer loop updates warned flags, invokes
termination and removes stale or terminated entries. -/
def check_restricted_apps (st : AgentEnfState) (running_apps : List ProcessInfo)
    (now : Int) (term : Nat → String → Bool) : EnfTick :=
  if st.restricted_apps.isEmpty then ⟨st, []⟩
  else
    ⟨{ st with
        restricted_app_timers :=
          (tickAcc st running_apps now).timers.filterMap
            (timerKeep (tickAcc st running_apps now).matched now term),
        event_queue :=
          st.event_queue ++ (tickAcc st running_apps now).events ++
            (tickAcc st running_apps now).timers.filterMap
              (timerEvent (tickAcc st running_apps now).matched now term) },
      (tickAcc st running_apps now).timers.filterMap
        (timerAttempt (tickAcc st running_apps now).matched now)⟩

/-- The optional fields of the data object of an inbound realtime message
(agent.py lines 789 to 821); a field holds none when absent from the JSON. -/
structure MsgData where
  restricted_apps : Option (List String) := none
  screenshot_enabled : Option Bool := none
  activity_tracking_enabled : Option Bool := none
  idle_threshold : Option Int := none
  pid : Option Nat := none
  name : Option String := none
  deriving DecidableEq, Repr

/-- An inbound realtime message after JSON decoding, dispatched on its
event tag (agent.py on_message); the data object is none when the message
has no data field. Tags outside the four handled ones fall through. -/
inductive WsMessage where
  | restricted_apps_update (data : Option MsgData)
  | config_update (data : Option MsgData)
  | take_screenshot_now
  | terminate_application (data : Option MsgData)
  | unknown_tag
  deriving DecidableEq, Repr

/-- The configuration fields on_message can read or write, mirroring the
agent attributes mutated at agent.py lines 790 to 809. -/
structure AgentConfig where
  screenshot_enabled : Bool
  activity_tracking_enabled : Bool
  idle_threshold : Int
  restricted_apps : List String
  deriving DecidableEq, Repr

/-- In-memory configuration plus the last contents written to the config
file by save_config (none when never saved). -/
structure ConfigStore where
  cfg : AgentConfig
  persisted : Option AgentConfig
  deriving DecidableEq, Repr

/-- DesktopAgent.save_config on its success path (agent.py lines 163 to
182): the current in-memory configuration is written out wholesale. -/
def save_config (st : ConfigStore) : ConfigStore :=
  { st with persisted := some st.cfg }

/-- External actions the on_message handler can trigger besides config
mutation (agent.py lines 811 to 821). -/
inductive WsAction where
  | screenshot_requested
  | terminate_requested (pid : Nat) (name : String)
  deriving DecidableEq, Repr

/-- The on_message callback of connect_websocket (agent.py lines 784 to
823) restricted to its effect on the configuration store, together with
the external actions it triggers. Field accesses written
written with chained get calls and defaults in Python become getD on the
optional fields. -/
def on_message (st : ConfigStore) (msg : WsMessage) : ConfigStore × List WsAction :=
  match msg with
  | WsMessage.restricted_apps_update data =>
      let newList := ((data.getD {}).restricted_apps).getD []
      let st1 : ConfigStore := { st with cfg := { st.cfg with restricted_apps := newList } }
      (save_config st1, [])
  | WsMessage.config_update data =>
      let d := data.getD {}
      let c0 := st.cfg
      let c1 := match d.screenshot_enabled with
        | some b => { c0 with screenshot_enabled := b }
        | none => c0
      let c2 := match d.activity_tracking_enabled with
        | some b => { c1 with activity_tracking_enabled := b }
        | none => c1
      let c3 := match d.idle_threshold with
        | some n => { c2 with idle_threshold := n }
        | none => c2
      (save_config { st with cfg := c3 }, [])
  | WsMessage.take_screenshot_now =>
      (st, [WsAction.screenshot_requested])
  | WsMessage.terminate_application data =>
      let d := data.getD {}
      match d.pid, d.name with
      | some p, some n => (st, [WsAction.terminate_requested p n])
      | _, _ => (st, [])
  | WsMessage.unknown_tag => (st, [])

/-- Outcome of the HTTP post of an event batch: a response with a status
code, or an exception raised by the transport. -/
inductive TransportResult where
  | status (code : Nat)
  | exn
  deriving DecidableEq, Repr

/-- Result of one flush: the queue contents after the flush, the batch
handed to the transport (none when no send was attempted) and whether the
server acknowledged it with HTTP 200 or 201. -/
structure FlushResult where
  queue : List DomainEvent
  sent : Option (List DomainEvent)
  delivered : Bool
  deriving DecidableEq, Repr

/-- DesktopAgent.send_event_data (agent.py lines 738 to 772). An empty
queue returns at once. Otherwise the drain loop removes every queued
event into one batch, which is posted; a non-2xx response or a transport
exception is caught and logged, and the drained batch is never put back
on the queue. The enclosing try/except makes the operation total: both
outcomes are values of TransportResult, so no exception escapes. -/
def send_event_data (q : List DomainEvent) (resp : TransportResult) : FlushResult :=
  if q.isEmpty then ⟨q, none, false⟩
  else
    ⟨[], some q,
      match resp with
      | TransportResult.status code => code == 200 || code == 201
      | TransportResult.exn => false⟩

/-- The config file as load_config sees it (agent.py lines 118 to 161):
absent, unreadable (json.load raised, caught at line 160), or parsed with
an optional device_id and organization_id field. -/
inductive ConfigFile where
  | missing
  | corrupt
  | parsed (device_id : Option String) (organization_id : Option Int)
  deriving DecidableEq, Repr

/-- The device identity the agent holds after DesktopAgent.__init__ ran
load_config. freshId is the uuid4 string generated unconditionally at
agent.py line 78; load_config (line 129) replaces it with the persisted
device_id only under `not self.device_id`, that is only when freshId is
the empty string. A missing or corrupt file keeps freshId. -/
def deviceIdAfterInit (freshId : String) (file : ConfigFile) : String :=
  match file with
  | ConfigFile.missing => freshId
  | ConfigFile.corrupt => freshId
  | ConfigFile.parsed did _ =>
      if freshId = "" then
        match did with
        | some d => d
        | none => freshId
      else freshId

/-- The startup-relevant part of the agent state for DesktopAgent.run and
main (agent.py lines 879 to 950): the organization id from the command
line or config, the needs_init flag and the running flag. -/
structure RunState where
  organization_id : Option Int
  needs_init : Bool
  running : Bool
  deriving DecidableEq, Repr

/-- Outcome of DesktopAgent.register_with_server (agent.py lines 571 to
634): false at once when the organization id is None or 0 (Python
falsiness at line 573), otherwise the result of the HTTP exchange,
where serverAccepts covers HTTP 200/201 and false covers non-2xx
responses and caught exceptions. -/
def register_with_server (orgId : Option Int) (serverAccepts : Bool) : Bool :=
  match orgId with
  | none => false
  | some o => if o = 0 then false else serverAccepts

/-- The initialization phase of DesktopAgent.run (agent.py lines 879 to
888): on registration success needs_init clears and the monitoring loop
starts; on failure the method logs a warning, sleeps 30 seconds and
returns with the state unchanged. Neither branch touches running. -/
def run_init (st : RunState) (serverAccepts : Bool) : RunState :=
  if st.needs_init then
    if register_with_server st.organization_id serverAccepts then
      { st with needs_init := false }
    else st
  else st

/-- n iterations of the loop in main (agent.py lines 942 to 947): call
agent.run, then exit only when agent.running has become false. accepts
gives the server verdict seen by the k-th registration attempt. -/
def main_iter (accepts : Nat → Bool) : Nat → RunState → RunState
  | 0, st => st
  | n + 1, st =>
      if st.running = false then st
      else main_iter accepts n (run_init st (accepts n))

/-- The timer dict contains a key exactly when some entry carries it. -/
theorem dictContains_iff {d : List (String × TimerInfo)} {k : String} :
    dictContains d k = true ↔ ∃ ti, (k, ti) ∈ d := by
  unfold dictContains
  rw [List.any_eq_true]
  constructor
  · rintro ⟨⟨k1, t1⟩, hmem, hb⟩
    have hk : k1 = k := by simpa using hb
    subst hk
    exact ⟨t1, hmem⟩
  · rintro ⟨ti, hmem⟩
    exact ⟨(k, ti), hmem, by simp⟩

/-- A key the dict does not contain heads no entry. -/
theorem not_mem_of_dictContains_false {d : List (String × TimerInfo)} {k : String}
    (h : dictContains d k = false) : ∀ ti : TimerInfo, (k, ti) ∉ d := by
  intro ti hmem
  have := dictContains_iff.mpr ⟨ti, hmem⟩
  rw [h] at this
  exact Bool.noConfusion this

/-- A key the dict does not contain is outside its key list. -/
theorem not_key_of_dictContains_false {d : List (String × TimerInfo)} {k : String}
    (h : dictContains d k = false) : k ∉ d.map Prod.fst := by
  intro hk
  rcases List.mem_map.mp hk with ⟨⟨k1, t1⟩, hmem, hfst⟩
  cases hfst
  exact not_mem_of_dictContains_false h t1 hmem

/-- In a dict with duplicate-free keys, a key determines its entry. -/
theorem keys_nodup_unique {d : List (String × TimerInfo)}
    (h : (d.map Prod.fst).Nodup) {k : String} {a b : TimerInfo}
    (ha : (k, a) ∈ d) (hb : (k, b) ∈ d) : a = b := by
  induction d with
  | nil => cases ha
  | cons kv rest ih =>
      rw [List.map_cons, List.nodup_cons] at h
      rcases List.mem_cons.mp ha with ha1 | ha2
      · rcases List.mem_cons.mp hb with hb1 | hb2
        · have : (k, a) = (k, b) := ha1.trans hb1.symm
          exact (Prod.mk.injEq _ _ _ _).mp this |>.2
        · exfalso
          apply h.1
          rw [← ha1]
          exact List.mem_map.mpr ⟨(k, b), hb2, rfl⟩
      · rcases List.mem_cons.mp hb with hb1 | hb2
        · exfalso
          apply h.1
          rw [← hb1]
          exact List.mem_map.mpr ⟨(k, a), ha2, rfl⟩
        · exact ih h.2 ha2 hb2

/-- detectOne only appends the matched key (when the name matches) to the
running_restricted_apps set. -/
theorem detectOne_matched (now : Int) (pid : Nat) (an : String) (acc : DetectAcc)
    (r : String) :
    (detectOne now pid an acc r).matched =
      acc.matched ++ (if strContains an r then [mkKey pid an] else []) := by
  unfold detectOne
  split_ifs <;> simp

/-- detectOne never removes a timer entry. -/
theorem detectOne_timers_mono {kv : String × TimerInfo} {acc : DetectAcc}
    (now : Int) (pid : Nat) (an : String) (r : String) (h : kv ∈ acc.timers) :
    kv ∈ (detectOne now pid an acc r).timers := by
  unfold detectOne
  split_ifs <;> simp [h]

/-- Every timer entry after detectOne either was already present or is a
fresh entry for a key the dict did not contain, created with start = now
and warned = false. -/
theorem detectOne_timers_src {kv : String × TimerInfo} {acc : DetectAcc}
    {now : Int} {pid : Nat} {an : String} {r : String}
    (h : kv ∈ (detectOne now pid an acc r).timers) :
    kv ∈ acc.timers ∨
      (dictContains acc.timers kv.1 = false ∧ kv.2.start_time = now ∧
        kv.2.warned = false) := by
  unfold detectOne at h
  split_ifs at h with h1 h2
  · exact Or.inl h
  · rcases List.mem_append.mp h with h3 | h3
    · exact Or.inl h3
    · right
      have hkv : kv = (mkKey pid an, ⟨now, pid, an, false⟩) := by simpa using h3
      subst hkv
      exact ⟨Bool.eq_false_iff.mpr h2, rfl, rfl⟩
  · exact Or.inl h

/-- detectOne preserves dict containment. -/
theorem detectOne_contains_mono {acc : DetectAcc} {k : String}
    (now : Int) (pid : Nat) (an : String) (r : String)
    (h : dictContains acc.timers k = true) :
    dictContains (detectOne now pid an acc r).timers k = true := by
  unfold detectOne
  split_ifs <;> simp_all [dictContains, List.any_append]

/-- detectOne preserves the invariant that every key of the
running_restricted_apps set is contained in the timer dict. -/
theorem detectOne_inv {acc : DetectAcc} (now : Int) (pid : Nat) (an : String)
    (r : String) (h : ∀ k ∈ acc.matched, dictContains acc.timers k = true) :
    ∀ k ∈ (detectOne now pid an acc r).matched,
      dictContains (detectOne now pid an acc r).timers k = true := by
  intro k hk
  rw [detectOne_matched] at hk
  rcases List.mem_append.mp hk with hk | hk
  · exact detectOne_contains_mono now pid an r (h k hk)
  · by_cases hs : strContains an r = true
    · rw [if_pos hs] at hk
      have hkey : k = mkKey pid an := by simpa using hk
      subst hkey
      unfold detectOne
      rw [if_pos hs]
      by_cases hc : dictContains acc.timers (mkKey pid an) = true
      · rw [if_pos hc]
        simpa using hc
      · rw [if_neg hc]
        simp [dictContains, List.any_append]
    · rw [if_neg hs] at hk
      cases hk

/-- detectOne preserves duplicate-freedom of the dict keys. -/
theorem detectOne_nodup {acc : DetectAcc} (now : Int) (pid : Nat) (an : String)
    (r : String) (h : (acc.timers.map Prod.fst).Nodup) :
    ((detectOne now pid an acc r).timers.map Prod.fst).Nodup := by
  unfold detectOne
  split_ifs with h1 h2
  · simpa using h
  · have hk := not_key_of_dictContains_false (Bool.eq_false_iff.mpr h2)
    simpa [List.nodup_append, h] using hk
  · simpa using h

/-- When every key detectOne would match is already contained in the dict,
detectOne changes neither the dict nor the event list. -/
theorem detectOne_noop {acc : DetectAcc} (now : Int) (pid : Nat) (an : String)
    (r : String)
    (h : strContains an r = true → dictContains acc.timers (mkKey pid an) = true) :
    (detectOne now pid an acc r).timers = acc.timers ∧
      (detectOne now pid an acc r).events = acc.events := by
  unfold detectOne
  split_ifs with h1 h2
  · exact ⟨rfl, rfl⟩
  · exact absurd (h h1) h2
  · exact ⟨rfl, rfl⟩

/-- The detection inner loop appends exactly the matches of appMatched. -/
theorem detectList_matched (rs : List String) (now : Int) (pid : Nat) (an : String)
    (acc : DetectAcc) :
    (detectList rs now pid an acc).matched = acc.matched ++ appMatched rs pid an := by
  induction rs generalizing acc with
  | nil => simp [detectList, appMatched]
  | cons r rs ih =>
      rw [detectList, appMatched, ih, detectOne_matched, List.append_assoc]

/-- The detection inner loop never removes a timer entry. -/
theorem detectList_timers_mono {kv : String × TimerInfo} (rs : List String)
    (now : Int) (pid : Nat) (an : String) {acc : DetectAcc} (h : kv ∈ acc.timers) :
    kv ∈ (detectList rs now pid an acc).timers := by
  induction rs generalizing acc with
  | nil => simpa [detectList] using h
  | cons r rs ih => exact ih (detectOne_timers_mono now pid an (strLower r) h)

/-- The detection inner loop preserves dict containment. -/
theorem detectList_contains_mono {k : String} (rs : List String) (now : Int)
    (pid : Nat) (an : String) {acc : DetectAcc}
    (h : dictContains acc.timers k = true) :
    dictContains (detectList rs now pid an acc).timers k = true := by
  induction rs generalizing acc with
  | nil => simpa [detectList] using h
  | cons r rs ih => exact ih (detectOne_contains_mono now pid an (strLower r) h)

/-- Every timer entry after the detection inner loop either was present
already or is fresh with start = now and warned = false. -/
theorem detectList_timers_src {kv : String × TimerInfo} (rs : List String)
    {now : Int} {pid : Nat} {an : String} {acc : DetectAcc}
    (h : kv ∈ (detectList rs now pid an acc).timers) :
    kv ∈ acc.timers ∨
      (dictContains acc.timers kv.1 = false ∧ kv.2.start_time = now ∧
        kv.2.warned = false) := by
  induction rs generalizing acc with
  | nil => exact Or.inl (by simpa [detectList] using h)
  | cons r rs ih =>
      rw [detectList] at h
      rcases ih h with h1 | h1
      · rcases detectOne_timers_src h1 with h2 | h2
        · exact Or.inl h2
        · exact Or.inr h2
      · right
        refine ⟨?_, h1.2⟩
        by_cases hc : dictContains acc.timers kv.1 = true
        · exact absurd (detectOne_contains_mono now pid an (strLower r) hc)
            (by simp [h1.1])
        · exact Bool.eq_false_iff.mpr hc

/-- The detection inner loop preserves the matched-contained invariant. -/
theorem detectList_inv (rs : List String) (now : Int) (pid : Nat) (an : String)
    {acc : DetectAcc} (h : ∀ k ∈ acc.matched, dictContains acc.timers k = true) :
    ∀ k ∈ (detectList rs now pid an acc).matched,
      dictContains (detectList rs now pid an acc).timers k = true := by
  induction rs generalizing acc with
  | nil => simpa [detectList] using h
  | cons r rs ih => exact ih (detectOne_inv now pid an (strLower r) h)

/-- The detection inner loop preserves duplicate-freedom of dict keys. -/
theorem detectList_nodup (rs : List String) (now : Int) (pid : Nat) (an : String)
    {acc : DetectAcc} (h : (acc.timers.map Prod.fst).Nodup) :
    ((detectList rs now pid an acc).timers.map Prod.fst).Nodup := by
  induction rs generalizing acc with
  | nil => simpa [detectList] using h
  | cons r rs ih => exact ih (detectOne_nodup now pid an (strLower r) h)

/-- When every key appMatched yields is already contained in the dict, the
detection inner loop changes neither the dict nor the event list. -/
theorem detectList_noop (rs : List String) (now : Int) (pid : Nat) (an : String)
    {acc : DetectAcc}
    (h : ∀ k ∈ appMatched rs pid an, dictContains acc.timers k = true) :
    (detectList rs now pid an acc).timers = acc.timers ∧
      (detectList rs now pid an acc).events = acc.events := by
  induction rs generalizing acc with
  | nil => exact ⟨rfl, rfl⟩
  | cons r rs ih =>
      rw [detectList]
      have hone : (detectOne now pid an acc (strLower r)).timers = acc.timers ∧
          (detectOne now pid an acc (strLower r)).events = acc.events := by
        refine detectOne_noop now pid an (strLower r) (fun hs => ?_)
        refine h (mkKey pid an) ?_
        rw [appMatched, if_pos hs]
        simp
      have hrest : ∀ k ∈ appMatched rs pid an,
          dictContains (detectOne now pid an acc (strLower r)).timers k = true := by
        intro k hk
        rw [hone.1]
        refine h k ?_
        rw [appMatched]
        exact List.mem_append.mpr (Or.inr hk)
      rcases ih hrest with ⟨ht, he⟩
      exact ⟨ht.trans hone.1, he.trans hone.2⟩

/-- The detection outer loop appends exactly snapshotMatched. -/
theorem detectPhase_matched (R : List String) (now : Int) (apps : List ProcessInfo)
    (acc : DetectAcc) :
    (detectPhase R now apps acc).matched = acc.matched ++ snapshotMatched R apps := by
  induction apps generalizing acc with
  | nil => simp [detectPhase, snapshotMatched]
  | cons a as ih =>
      rw [detectPhase, snapshotMatched, ih, detectList_matched, List.append_assoc]

/-- The detection outer loop never removes a timer entry. -/
theorem detectPhase_timers_mono {kv : String × TimerInfo} (R : List String)
    (now : Int) (apps : List ProcessInfo) {acc : DetectAcc} (h : kv ∈ acc.timers) :
    kv ∈ (detectPhase R now apps acc).timers := by
  induction apps generalizing acc with
  | nil => simpa [detectPhase] using h
  | cons a as ih => exact ih (detectList_timers_mono R now a.pid (strLower a.name) h)

/-- Every timer entry after the detection outer loop either was present
already or is fresh with start = now and warned = false. -/
theorem detectPhase_timers_src {kv : String × TimerInfo} (R : List String)
    {now : Int} (apps : List ProcessInfo) {acc : DetectAcc}
    (h : kv ∈ (detectPhase R now apps acc).timers) :
    kv ∈ acc.timers ∨
      (dictContains acc.timers kv.1 = false ∧ kv.2.start_time = now ∧
        kv.2.warned = false) := by
  induction apps generalizing acc with
  | nil => exact Or.inl (by simpa [detectPhase] using h)
  | cons a as ih =>
      rw [detectPhase] at h
      rcases ih h with h1 | h1
      · rcases detectList_timers_src R h1 with h2 | h2
        · exact Or.inl h2
        · exact Or.inr h2
      · right
        refine ⟨?_, h1.2⟩
        by_cases hc : dictContains acc.timers kv.1 = true
        · exact absurd (detectList_contains_mono R now a.pid (strLower a.name) hc)
            (by simp [h1.1])
        · exact Bool.eq_false_iff.mpr hc

/-- The detection outer loop preserves the matched-contained invariant. -/
theorem detectPhase_inv (R : List String) (now : Int) (apps : List ProcessInfo)
    {acc : DetectAcc} (h : ∀ k ∈ acc.matched, dictContains acc.timers k = true) :
    ∀ k ∈ (detectPhase R now apps acc).matched,
      dictContains (detectPhase R now apps acc).timers k = true := by
  induction apps generalizing acc with
  | nil => simpa [detectPhase] using h
  | cons a as ih => exact ih (detectList_inv R now a.pid (strLower a.name) h)

/-- The detection outer loop preserves duplicate-freedom of dict keys. -/
theorem detectPhase_nodup (R : List String) (now : Int) (apps : List ProcessInfo)
    {acc : DetectAcc} (h : (acc.timers.map Prod.fst).Nodup) :
    ((detectPhase R now apps acc).timers.map Prod.fst).Nodup := by
  induction apps generalizing acc with
  | nil => simpa [detectPhase] using h
  | cons a as ih => exact ih (detectList_nodup R now a.pid (strLower a.name) h)

/-- When every key of snapshotMatched is already contained in the dict,
the detection outer loop changes neither the dict nor the event list. -/
theorem detectPhase_noop (R : List String) (now : Int) (apps : List ProcessInfo)
    (acc : DetectAcc)
    (h : ∀ k ∈ snapshotMatched R apps, dictContains acc.timers k = true) :
    (detectPhase R now apps acc).timers = acc.timers ∧
      (detectPhase R now apps acc).events = acc.events := by
  induction apps generalizing acc with
  | nil => exact ⟨rfl, rfl⟩
  | cons a as ih =>
      rw [detectPhase]
      have hone := detectList_noop R now a.pid (strLower a.name)
        (fun k hk => h k (by
          rw [snapshotMatched]
          exact List.mem_append.mpr (Or.inl hk)))
      have hrest : ∀ k ∈ snapshotMatched R as,
          dictContains (detectList R now a.pid (strLower a.name) acc).timers k =
            true := by
        intro k hk
        rw [hone.1]
        exact h k (by rw [snapshotMatched]; exact List.mem_append.mpr (Or.inr hk))
      rcases ih _ hrest with ⟨ht, he⟩
      exact ⟨ht.trans hone.1, he.trans hone.2⟩

/-- warnUpdate changes at most the warned flag. -/
theorem warnUpdate_fields (now : Int) (ti : TimerInfo) :
    (warnUpdate now ti).start_time = ti.start_time ∧
      (warnUpdate now ti).pid = ti.pid ∧ (warnUpdate now ti).name = ti.name := by
  unfold warnUpdate
  split_ifs <;> exact ⟨rfl, rfl, rfl⟩

/-- warnUpdate is idempotent. -/
theorem warnUpdate_idem (now : Int) (ti : TimerInfo) :
    warnUpdate now (warnUpdate now ti) = warnUpdate now ti := by
  obtain ⟨s, p, nm, w⟩ := ti
  cases w <;> by_cases h : 60 ≤ now - s <;> simp [warnUpdate, h]

/-- Once elapsed reached the warning threshold, warnUpdate yields the
timer with warned set, whatever its previous flag. -/
theorem warnUpdate_warns (now : Int) (ti : TimerInfo) (h : 60 ≤ now - ti.start_time) :
    warnUpdate now ti = ⟨ti.start_time, ti.pid, ti.name, true⟩ := by
  obtain ⟨s, p, nm, w⟩ := ti
  cases w <;> simp_all [warnUpdate]

/-- A kept timer-loop entry carries the key of its source entry and the
warnUpdate of its source timer. -/
theorem timerKeep_some {m : List String} {now : Int} {term : Nat → String → Bool}
    {kv r : String × TimerInfo} (h : timerKeep m now term kv = some r) :
    r.1 = kv.1 ∧ r.2 = warnUpdate now kv.2 ∧ kv.1 ∈ m ∧
      (120 ≤ now - kv.2.start_time → term kv.2.pid kv.2.name = false) := by
  have hf := warnUpdate_fields now kv.2
  unfold timerKeep at h
  by_cases h1 : kv.1 ∈ m
  · rw [if_pos h1] at h
    by_cases h2 : 120 ≤ now - (warnUpdate now kv.2).start_time
    · rw [if_pos h2] at h
      by_cases h3 : term (warnUpdate now kv.2).pid (warnUpdate now kv.2).name = true
      · rw [if_pos h3] at h
        exact Option.noConfusion h
      · rw [if_neg h3] at h
        cases h
        refine ⟨rfl, rfl, h1, fun _ => ?_⟩
        rw [← hf.2.1, ← hf.2.2]
        exact Bool.eq_false_iff.mpr h3
    · rw [if_neg h2] at h
      cases h
      refine ⟨rfl, rfl, h1, fun h4 => ?_⟩
      rw [hf.1] at h2
      exact absurd h4 h2
  · rw [if_neg h1] at h
    exact Option.noConfusion h

/-- A matched entry whose termination is not due or fails is kept, with
its timer warnUpdated. -/
theorem timerKeep_keeps {m : List String} {now : Int} {term : Nat → String → Bool}
    (kv : String × TimerInfo) (h1 : kv.1 ∈ m)
    (h2 : 120 ≤ now - kv.2.start_time → term kv.2.pid kv.2.name = false) :
    timerKeep m now term kv = some (kv.1, warnUpdate now kv.2) := by
  have hf := warnUpdate_fields now kv.2
  unfold timerKeep
  rw [if_pos h1]
  split_ifs with h3 h4
  · rw [hf.1] at h3
    rw [hf.2.1, hf.2.2, h2 h3] at h4
    exact Bool.noConfusion h4
  · rfl
  · rfl

/-- A matched entry whose termination is due and succeeds is removed. -/
theorem timerKeep_removes {m : List String} {now : Int} {term : Nat → String → Bool}
    (kv : String × TimerInfo) (h1 : kv.1 ∈ m) (h2 : 120 ≤ now - kv.2.start_time)
    (h3 : term kv.2.pid kv.2.name = true) :
    timerKeep m now term kv = none := by
  have hf := warnUpdate_fields now kv.2
  unfold timerKeep
  rw [if_pos h1, hf.1, if_pos h2, hf.2.1, hf.2.2, h3]
  rfl

/-- A matched entry whose termination is due and succeeds queues the
restricted_app_terminated event for its pid and name. -/
theorem timerEvent_fires {m : List String} {now : Int} {term : Nat → String → Bool}
    (kv : String × TimerInfo) (h1 : kv.1 ∈ m) (h2 : 120 ≤ now - kv.2.start_time)
    (h3 : term kv.2.pid kv.2.name = true) :
    timerEvent m now term kv =
      some (DomainEvent.restricted_app_terminated kv.2.name kv.2.pid) := by
  have hf := warnUpdate_fields now kv.2
  unfold timerEvent
  rw [if_pos h1, hf.2.1, hf.2.2, hf.1, if_pos ⟨h2, h3⟩]

/-- A matched entry emits no termination event when termination is not
due or fails. -/
theorem timerEvent_silent {m : List String} {now : Int} {term : Nat → String → Bool}
    (kv : String × TimerInfo)
    (h2 : 120 ≤ now - kv.2.start_time → term kv.2.pid kv.2.name = false) :
    timerEvent m now term kv = none := by
  have hf := warnUpdate_fields now kv.2
  unfold timerEvent
  split_ifs with h1 h3
  · rw [hf.1, hf.2.1, hf.2.2] at h3
    have := h3.2
    rw [h2 h3.1] at this
    exact Bool.noConfusion this
  · rfl
  · rfl

/-- A matched entry whose elapsed time reached the kill threshold has
terminate_process invoked on it. -/
theorem timerAttempt_fires {m : List String} {now : Int} (kv : String × TimerInfo)
    (h1 : kv.1 ∈ m) (h2 : 120 ≤ now - kv.2.start_time) :
    timerAttempt m now kv = some kv.1 := by
  unfold timerAttempt
  rw [if_pos ⟨h1, h2⟩]

/-- A filterMap whose function fixes every element of the list is the
identity on it. -/
theorem filterMap_eq_self_of {α : Type} (f : α → Option α) (l : List α)
    (h : ∀ x ∈ l, f x = some x) : l.filterMap f = l := by
  induction l with
  | nil => rfl
  | cons a as ih =>
      rw [List.filterMap_cons, h a (List.mem_cons_self a as),
        ih (fun x hx => h x (List.mem_cons_of_mem a hx))]

/-- A filterMap whose function drops every element of the list is empty. -/
theorem filterMap_eq_nil_of {α β : Type} (f : α → Option β) (l : List α)
    (h : ∀ x ∈ l, f x = none) : l.filterMap f = [] := by
  induction l with
  | nil => rfl
  | cons a as ih =>
      rw [List.filterMap_cons, h a (List.mem_cons_self a as),
        ih (fun x hx => h x (List.mem_cons_of_mem a hx))]

/-- The timer loop maps dict keys into a sublist of the previous keys. -/
theorem timerKeep_keys_sublist (m : List String) (now : Int)
    (term : Nat → String → Bool) (l : List (String × TimerInfo)) :
    ((l.filterMap (timerKeep m now term)).map Prod.fst).Sublist
      (l.map Prod.fst) := by
  induction l with
  | nil => simp
  | cons kv rest ih =>
      rw [List.filterMap_cons, List.map_cons]
      cases hk : timerKeep m now term kv with
      | none => exact ih.trans (List.sublist_cons_self kv.1 (rest.map Prod.fst))
      | some r =>
          rw [List.map_cons, (timerKeep_some hk).1]
          exact ih.cons₂ kv.1

/-- The running_restricted_apps set of a tick is snapshotMatched. -/
theorem tickAcc_matched (st : AgentEnfState) (apps : List ProcessInfo) (now : Int) :
    (tickAcc st apps now).matched = snapshotMatched st.restricted_apps apps := by
  unfold tickAcc
  rw [detectPhase_matched]
  exact List.nil_append _

/-- The detection loop of a tick never removes a timer entry. -/
theorem tickAcc_timers_mono {kv : String × TimerInfo} (st : AgentEnfState)
    (apps : List ProcessInfo) (now : Int) (h : kv ∈ st.restricted_app_timers) :
    kv ∈ (tickAcc st apps now).timers :=
  detectPhase_timers_mono _ now apps h

/-- Every timer entry after the detection loop of a tick either predates
the tick or is fresh with start = now and warned = false. -/
theorem tickAcc_timers_src {kv : String × TimerInfo} (st : AgentEnfState)
    (apps : List ProcessInfo) (now : Int) (h : kv ∈ (tickAcc st apps now).timers) :
    kv ∈ st.restricted_app_timers ∨
      (dictContains st.restricted_app_timers kv.1 = false ∧
        kv.2.start_time = now ∧ kv.2.warned = false) :=
  detectPhase_timers_src _ apps h

/-- After the detection loop every matched key has a timer entry. -/
theorem tickAcc_inv (st : AgentEnfState) (apps : List ProcessInfo) (now : Int) :
    ∀ k ∈ (tickAcc st apps now).matched,
      dictContains (tickAcc st apps now).timers k = true :=
  detectPhase_inv _ now apps (fun k hk => absurd hk (List.not_mem_nil k))

/-- The detection loop of a tick preserves duplicate-free dict keys. -/
theorem tickAcc_nodup (st : AgentEnfState) (apps : List ProcessInfo) (now : Int)
    (h : (st.restricted_app_timers.map Prod.fst).Nodup) :
    ((tickAcc st apps now).timers.map Prod.fst).Nodup :=
  detectPhase_nodup _ now apps h

/-- The state after one tick with a non-empty restricted list, written
out: the timer loop filters the detection accumulator and the queue grows
by the detection and termination events. -/
theorem check_state_eq (st : AgentEnfState) (apps : List ProcessInfo) (now : Int)
    (term : Nat → String → Bool) (h : st.restricted_apps ≠ []) :
    (check_restricted_apps st apps now term).state =
      { st with
        restricted_app_timers :=
          (tickAcc st apps now).timers.filterMap
            (timerKeep (tickAcc st apps now).matched now term),
        event_queue :=
          st.event_queue ++ (tickAcc st apps now).events ++
            (tickAcc st apps now).timers.filterMap
              (timerEvent (tickAcc st apps now).matched now term) } := by
  have hne : st.restricted_apps.isEmpty = false := by
    cases hl : st.restricted_apps
    · exact absurd hl h
    · rfl
  unfold check_restricted_apps
  rw [hne]
  rfl

/-- The termination attempts of one tick with a non-empty restricted
list, written out. -/
theorem check_attempted_eq (st : AgentEnfState) (apps : List ProcessInfo) (now : Int)
    (term : Nat → String → Bool) (h : st.restricted_apps ≠ []) :
    (check_restricted_apps st apps now term).attempted =
      (tickAcc st apps now).timers.filterMap
        (timerAttempt (tickAcc st apps now).matched now) := by
  have hne : st.restricted_apps.isEmpty = false := by
    cases hl : st.restricted_apps
    · exact absurd hl h
    · rfl
  unfold check_restricted_apps
  rw [hne]
  rfl

/-- C1: the spec claims the persisted device_id is adopted after
load_config whenever the config file exists and carries one, so that the
identity is stable across restarts. In the code, __init__ generates a
fresh uuid4 unconditionally before calling load_config, so the guard
`not self.device_id` protecting the adoption is always false: with a
valid config file carrying device_id "persisted-device-id" and the fresh
uuid string "a3e1c2d4", the agent keeps the fresh id, contradicting both
the claim and the comments of the code itself at lines 77 and 128. -/
theorem C1_persisted_device_id_never_adopted :
    deviceIdAfterInit "a3e1c2d4"
        (ConfigFile.parsed (some "persisted-device-id") (some 1)) = "a3e1c2d4" ∧
      ("a3e1c2d4" : String) ≠ "persisted-device-id" := by
  decide

/-- C2 counterexample: with an empty restricted list and one enforcement
timer present, one invocation of check_restricted_apps does not remove
the timer (the function returns at line 390 before touching the map),
refuting the claim that one reconcile empties the timer map. -/
theorem C2_counterexample :
    (check_restricted_apps
        ⟨[], [(mkKey 7 "solitaire.exe", ⟨0, 7, "solitaire.exe", true⟩)], []⟩
        [] 500 (fun _ _ => true)).state.restricted_app_timers ≠ [] := by
  decide

/-- C2 amended: when the restricted-app list is empty,
check_restricted_apps returns immediately, leaving the timer map, the
event queue and the whole state unchanged and attempting no termination;
timers are removed only by an invocation with a non-empty list. -/
theorem C2_empty_policy_leaves_state_unchanged (st : AgentEnfState)
    (apps : List ProcessInfo) (now : Int) (term : Nat → String → Bool)
    (h : st.restricted_apps = []) :
    check_restricted_apps st apps now term = ⟨st, []⟩ := by
  simp [check_restricted_apps, h]

/-- C2 witness: the amended theorem applied to a state with an empty
restricted list and one live timer. -/
theorem C2_witness :
    check_restricted_apps
        ⟨[], [(mkKey 7 "solitaire.exe", ⟨0, 7, "solitaire.exe", true⟩)], []⟩
        [] 500 (fun _ _ => true) =
      ⟨⟨[], [(mkKey 7 "solitaire.exe", ⟨0, 7, "solitaire.exe", true⟩)], []⟩, []⟩ :=
  C2_empty_policy_leaves_state_unchanged _ _ _ _ rfl

/-- C3 counterexample: starting from a state with no organization id,
fifty iterations of the main loop with every registration attempt refused
leave the agent exactly where it started: still running, still
unregistered. The agent neither aborts nor stops retrying, refuting the
claim that startup is aborted with an operator-visible failure. -/
theorem C3_counterexample :
    main_iter (fun _ => false) 50 ⟨none, true, true⟩ = ⟨none, true, true⟩ ∧
      (main_iter (fun _ => false) 50 ⟨none, true, true⟩).running = true := by
  constructor
  · rfl
  · rfl

/-- C3 amended: when every registration attempt fails (in particular when
the organization id is missing, which makes register_with_server return
false at once), each pass of the main loop logs a warning, sleeps and
returns with the state unchanged, so the agent retries indefinitely: any
number of loop iterations is the identity on the run state, and the agent
never aborts and never signals a fatal failure. -/
theorem C3_registration_failure_retries_forever (accepts : Nat → Bool) (n : Nat)
    (st : RunState)
    (h : ∀ k, register_with_server st.organization_id (accepts k) = false) :
    main_iter accepts n st = st := by
  induction n with
  | zero => rfl
  | succ m ih =>
      unfold main_iter
      by_cases hr : st.running = false
      · simp [hr]
      · have hstep : run_init st (accepts m) = st := by
          unfold run_init
          by_cases hn : st.needs_init
          · simp [hn, h m]
          · simp [hn]
        simp [hr, hstep, ih]

/-- C3 witness: the amended theorem applied to a concrete unregistered
state with a missing organization id and a server that always refuses. -/
theorem C3_witness :
    main_iter (fun _ => false) 3 ⟨none, true, true⟩ = ⟨none, true, true⟩ :=
  C3_registration_failure_retries_forever (fun _ => false) 3 ⟨none, true, true⟩
    (fun _ => rfl)

/-- C5: one flush of a non-empty queue drains exactly the events queued
at flush start into one batch handed to the transport; whatever the
transport outcome (2xx, non-2xx or exception, all caught inside the
operation, which is total), the queue afterwards is empty — the batch is
dropped, never re-queued — and the next flush sees only events queued
after the drain. -/
theorem C5_flush_drains_exactly_and_drops_on_failure (q extra : List DomainEvent)
    (r r2 : TransportResult) (h : q ≠ []) :
    (send_event_data q r).queue = [] ∧
      (send_event_data q r).sent = some q ∧
      (send_event_data ((send_event_data q r).queue ++ extra) r2).sent =
        (if extra.isEmpty then none else some extra) := by
  cases q with
  | nil => exact absurd rfl h
  | cons e es =>
      refine ⟨rfl, rfl, ?_⟩
      cases extra with
      | nil => rfl
      | cons e2 es2 => rfl

/-- C5 witness: the theorem applied to a one-event queue whose send
returns HTTP 500 and a later flush of one newly queued event. -/
theorem C5_witness :
    (send_event_data [DomainEvent.restricted_app_detected "chrome.exe" 100]
        (TransportResult.status 500)).queue = [] ∧
      (send_event_data [DomainEvent.restricted_app_detected "chrome.exe" 100]
          (TransportResult.status 500)).sent =
        some [DomainEvent.restricted_app_detected "chrome.exe" 100] ∧
      (send_event_data
          ((send_event_data [DomainEvent.restricted_app_detected "chrome.exe" 100]
              (TransportResult.status 500)).queue ++
            [DomainEvent.restricted_app_terminated "chrome.exe" 100])
          (TransportResult.status 200)).sent =
        (if ([DomainEvent.restricted_app_terminated "chrome.exe" 100].isEmpty : Bool)
          then none else some [DomainEvent.restricted_app_terminated "chrome.exe" 100]) :=
  C5_flush_drains_exactly_and_drops_on_failure _ _ _ _ (by decide)

/-- C6: a restricted_apps_update message whose data object lacks the
restricted_apps field, or whose data field is missing entirely, makes the
handler set the restricted-app list to the empty list (the chained get
defaults at line 790) and persist the emptied configuration. -/
theorem C6_missing_field_clears_policy (st : ConfigStore) (data : Option MsgData)
    (h : (data.getD {}).restricted_apps = none) :
    (on_message st (WsMessage.restricted_apps_update data)).1.cfg.restricted_apps = [] ∧
      (on_message st (WsMessage.restricted_apps_update data)).1.persisted =
        some (on_message st (WsMessage.restricted_apps_update data)).1.cfg := by
  simp [on_message, save_config, h]

/-- C6 witness: the theorem applied to a populated config store and a
message whose data object is present but has no restricted_apps field. -/
theorem C6_witness :
    (on_message ⟨⟨true, true, 300, ["chrome", "steam"]⟩, none⟩
        (WsMessage.restricted_apps_update (some {}))).1.cfg.restricted_apps = [] ∧
      (on_message ⟨⟨true, true, 300, ["chrome", "steam"]⟩, none⟩
          (WsMessage.restricted_apps_update (some {}))).1.persisted =
        some (on_message ⟨⟨true, true, 300, ["chrome", "steam"]⟩, none⟩
            (WsMessage.restricted_apps_update (some {}))).1.cfg :=
  C6_missing_field_clears_policy _ _ rfl

/-- C7: handling config_update is a partial merge: each of
screenshot_enabled, activity_tracking_enabled and idle_threshold takes
the message value exactly when that field is present and keeps its prior
value when absent; the restricted list is untouched and the merged
configuration is persisted. -/
theorem C7_config_update_partial_merge (st : ConfigStore) (data : Option MsgData) :
    (on_message st (WsMessage.config_update data)).1.cfg.screenshot_enabled =
        ((data.getD {}).screenshot_enabled).getD st.cfg.screenshot_enabled ∧
      (on_message st (WsMessage.config_update data)).1.cfg.activity_tracking_enabled =
        ((data.getD {}).activity_tracking_enabled).getD st.cfg.activity_tracking_enabled ∧
      (on_message st (WsMessage.config_update data)).1.cfg.idle_threshold =
        ((data.getD {}).idle_threshold).getD st.cfg.idle_threshold ∧
      (on_message st (WsMessage.config_update data)).1.cfg.restricted_apps =
        st.cfg.restricted_apps ∧
      (on_message st (WsMessage.config_update data)).1.persisted =
        some (on_message st (WsMessage.config_update data)).1.cfg := by
  cases data with
  | none => simp [on_message, save_config]
  | some md =>
      obtain ⟨ra, se, ate, it, p, nm⟩ := md
      cases se <;> cases ate <;> cases it <;> simp [on_message, save_config]

/-- C8: a restricted_apps_update message carrying a restricted_apps list
replaces the restricted-app list wholesale with exactly that list, and
the replaced configuration is persisted. -/
theorem C8_restricted_apps_update_replaces_wholesale (st : ConfigStore)
    (data : Option MsgData) (L : List String)
    (h : (data.getD {}).restricted_apps = some L) :
    (on_message st (WsMessage.restricted_apps_update data)).1.cfg.restricted_apps = L ∧
      (on_message st (WsMessage.restricted_apps_update data)).1.persisted =
        some (on_message st (WsMessage.restricted_apps_update data)).1.cfg := by
  simp [on_message, save_config, h]

/-- C8 witness: the theorem applied to a store holding a prior list and a
message replacing it with a disjoint one. -/
theorem C8_witness :
    (on_message ⟨⟨true, true, 300, ["chrome", "steam"]⟩, none⟩
        (WsMessage.restricted_apps_update
          (some { restricted_apps := some ["discord"] }))).1.cfg.restricted_apps =
        ["discord"] ∧
      (on_message ⟨⟨true, true, 300, ["chrome", "steam"]⟩, none⟩
          (WsMessage.restricted_apps_update
            (some { restricted_apps := some ["discord"] }))).1.persisted =
        some (on_message ⟨⟨true, true, 300, ["chrome", "steam"]⟩, none⟩
            (WsMessage.restricted_apps_update
              (some { restricted_apps := some ["discord"] }))).1.cfg :=
  C8_restricted_apps_update_replaces_wholesale _ _ ["discord"] rfl

/-- C4 counterexample: with an empty restricted list and one enforcement
timer present, the tick returns early, so the stale timer key survives
the tick even though the matched set of that snapshot is empty — the
end-of-tick key set is not a subset of the matched pairs, refuting the
claim as stated for that tick. -/
theorem C4_counterexample :
    mkKey 5 "x" ∈
        ((check_restricted_apps ⟨[], [(mkKey 5 "x", ⟨0, 5, "x", false⟩)], []⟩ [] 0
              (fun _ _ => true)).state.restricted_app_timers.map Prod.fst) ∧
      mkKey 5 "x" ∉ snapshotMatched ([] : List String) ([] : List ProcessInfo) := by
  decide

/-- C4 amended: on every enforcement tick whose restricted list is
non-empty, the key of every timer entry left at the end of the tick
belongs to the matched set computed from the snapshot of that tick (stale keys
are removed within the same tick, although the code adds new detections
first and prunes afterwards); a tick with an empty restricted list
returns early and leaves the timer map untouched. -/
theorem C4_end_of_tick_keys_subset_matched (st : AgentEnfState)
    (apps : List ProcessInfo) (now : Int) (term : Nat → String → Bool)
    (kv : String × TimerInfo) (hR : st.restricted_apps ≠ [])
    (hkv : kv ∈ (check_restricted_apps st apps now term).state.restricted_app_timers) :
    kv.1 ∈ snapshotMatched st.restricted_apps apps := by
  rw [check_state_eq st apps now term hR] at hkv
  rcases List.mem_filterMap.mp hkv with ⟨kv0, hmem, hk⟩
  rcases timerKeep_some hk with ⟨hkey, _, hmatched, _⟩
  rw [tickAcc_matched] at hmatched
  rw [hkey]
  exact hmatched

/-- C4 witness: the amended theorem applied to a tick that detects a
matching process and keeps its fresh timer. -/
theorem C4_witness :
    mkKey 100 "chrome.exe" ∈ snapshotMatched ["chrome"] [⟨100, "Chrome.exe"⟩] :=
  C4_end_of_tick_keys_subset_matched ⟨["chrome"], [], []⟩ [⟨100, "Chrome.exe"⟩] 0
    (fun _ _ => true) (mkKey 100 "chrome.exe", ⟨0, 100, "chrome.exe", false⟩)
    (by decide) (by decide)

/-- C10 counterexample: a matched timer with warned = false and elapsed
125 undergoes a termination attempt that fails (the capability returns
false), yet the timer is not left unchanged: that same tick sets its
warned flag, refuting the words that a failed attempt leaves the timer
in place unchanged. -/
theorem C10_counterexample :
    (check_restricted_apps
          ⟨["chrome"], [(mkKey 100 "chrome.exe", ⟨0, 100, "chrome.exe", false⟩)], []⟩
          [⟨100, "Chrome.exe"⟩] 125 (fun _ _ => false)).attempted =
        [mkKey 100 "chrome.exe"] ∧
      (check_restricted_apps
            ⟨["chrome"], [(mkKey 100 "chrome.exe", ⟨0, 100, "chrome.exe", false⟩)], []⟩
            [⟨100, "Chrome.exe"⟩] 125
            (fun _ _ => false)).state.restricted_app_timers ≠
        [(mkKey 100 "chrome.exe", ⟨0, 100, "chrome.exe", false⟩)] ∧
      (check_restricted_apps
            ⟨["chrome"], [(mkKey 100 "chrome.exe", ⟨0, 100, "chrome.exe", false⟩)], []⟩
            [⟨100, "Chrome.exe"⟩] 125
            (fun _ _ => false)).state.restricted_app_timers =
        [(mkKey 100 "chrome.exe", ⟨0, 100, "chrome.exe", true⟩)] := by
  decide

/-- C10 amended: on a tick with a non-empty restricted list, for a
tracked timer whose key is in the matched set of that tick and whose elapsed
time reached KILL_THRESHOLD (120 s), termination is attempted; if it
fails the timer stays with key, pid, name and start_time unchanged —
warned becomes true on that tick if it was not already — so the attempt
recurs on every later tick while the key stays matched; if it succeeds
the key is removed from the timer map and restricted_app_terminated is
queued. -/
theorem C10_kill_threshold_retries_until_success (st : AgentEnfState)
    (apps : List ProcessInfo) (now : Int) (term : Nat → String → Bool)
    (k : String) (t : TimerInfo) (hR : st.restricted_apps ≠ [])
    (hN : (st.restricted_app_timers.map Prod.fst).Nodup)
    (h1 : (k, t) ∈ st.restricted_app_timers)
    (hM : k ∈ snapshotMatched st.restricted_apps apps)
    (hE : 120 ≤ now - t.start_time) :
    k ∈ (check_restricted_apps st apps now term).attempted ∧
      (term t.pid t.name = false →
        (k, ⟨t.start_time, t.pid, t.name, true⟩) ∈
          (check_restricted_apps st apps now term).state.restricted_app_timers) ∧
      (term t.pid t.name = true →
        dictContains (check_restricted_apps st apps now term).state.restricted_app_timers
            k = false ∧
          DomainEvent.restricted_app_terminated t.name t.pid ∈
            (check_restricted_apps st apps now term).state.event_queue) := by
  have hmem : ((k, t) : String × TimerInfo) ∈ (tickAcc st apps now).timers :=
    tickAcc_timers_mono st apps now h1
  have hMk : k ∈ (tickAcc st apps now).matched := by
    rw [tickAcc_matched]
    exact hM
  have hwarn : warnUpdate now t = ⟨t.start_time, t.pid, t.name, true⟩ :=
    warnUpdate_warns now t (le_trans (by norm_num) hE)
  refine ⟨?_, ?_, ?_⟩
  · rw [check_attempted_eq st apps now term hR]
    exact List.mem_filterMap.mpr ⟨(k, t), hmem, timerAttempt_fires (k, t) hMk hE⟩
  · intro hf
    rw [check_state_eq st apps now term hR]
    refine List.mem_filterMap.mpr ⟨(k, t), hmem, ?_⟩
    rw [timerKeep_keeps (k, t) hMk (fun _ => hf), hwarn]
  · intro ht
    constructor
    · rw [check_state_eq st apps now term hR]
      by_cases hc :
        dictContains
          ((tickAcc st apps now).timers.filterMap
            (timerKeep (tickAcc st apps now).matched now term)) k = true
      · exfalso
        rcases dictContains_iff.mp hc with ⟨u, hu⟩
        rcases List.mem_filterMap.mp hu with ⟨kv0, hmem0, hk0⟩
        obtain ⟨k0, t0⟩ := kv0
        rcases timerKeep_some hk0 with ⟨hkey0, _, _, hterm0⟩
        have hk0eq : k = k0 := hkey0
        subst hk0eq
        have ht0 : t0 = t :=
          keys_nodup_unique (tickAcc_nodup st apps now hN) hmem0 hmem
        rw [ht0] at hterm0
        rw [hterm0 hE] at ht
        exact Bool.noConfusion ht
      · exact Bool.eq_false_iff.mpr hc
    · rw [check_state_eq st apps now term hR]
      refine List.mem_append.mpr (Or.inr ?_)
      exact List.mem_filterMap.mpr ⟨(k, t), hmem, timerEvent_fires (k, t) hMk hE ht⟩

/-- C10 witness: the amended theorem applied to a tracked matched timer
at elapsed 125 whose termination capability always fails. -/
theorem C10_witness :
    mkKey 100 "chrome.exe" ∈
        (check_restricted_apps
          ⟨["chrome"], [(mkKey 100 "chrome.exe", ⟨0, 100, "chrome.exe", true⟩)], []⟩
          [⟨100, "Chrome.exe"⟩] 125 (fun _ _ => false)).attempted ∧
      (false = false →
        (mkKey 100 "chrome.exe", (⟨0, 100, "chrome.exe", true⟩ : TimerInfo)) ∈
          (check_restricted_apps
            ⟨["chrome"], [(mkKey 100 "chrome.exe", ⟨0, 100, "chrome.exe", true⟩)], []⟩
            [⟨100, "Chrome.exe"⟩] 125
            (fun _ _ => false)).state.restricted_app_timers) ∧
      (false = true →
        dictContains
            (check_restricted_apps
              ⟨["chrome"], [(mkKey 100 "chrome.exe", ⟨0, 100, "chrome.exe", true⟩)], []⟩
              [⟨100, "Chrome.exe"⟩] 125
              (fun _ _ => false)).state.restricted_app_timers
            (mkKey 100 "chrome.exe") = false ∧
          DomainEvent.restricted_app_terminated "chrome.exe" 100 ∈
            (check_restricted_apps
              ⟨["chrome"], [(mkKey 100 "chrome.exe", ⟨0, 100, "chrome.exe", true⟩)], []⟩
              [⟨100, "Chrome.exe"⟩] 125
              (fun _ _ => false)).state.event_queue) :=
  C10_kill_threshold_retries_until_success
    ⟨["chrome"], [(mkKey 100 "chrome.exe", ⟨0, 100, "chrome.exe", true⟩)], []⟩
    [⟨100, "Chrome.exe"⟩] 125 (fun _ _ => false) (mkKey 100 "chrome.exe")
    ⟨0, 100, "chrome.exe", true⟩ (by decide) (by decide) (by decide) (by decide)
    (by decide)

/-- C9 counterexample: policy ["chrome"], a tracked matched timer with
start 0, clock 130 and a termination capability that succeeds. The first
reconcile terminates the process and removes the timer; the second
reconcile with the same snapshot, policy and clock re-detects the still
listed process and creates a timer with start 130. Two runs thus differ
from one run, and the surviving timer does not carry its original start,
refuting the claim for these inputs. -/
theorem C9_counterexample :
    (check_restricted_apps
          (check_restricted_apps
            ⟨["chrome"], [(mkKey 100 "chrome.exe", ⟨0, 100, "chrome.exe", true⟩)], []⟩
            [⟨100, "Chrome.exe"⟩] 130 (fun _ _ => true)).state
          [⟨100, "Chrome.exe"⟩] 130 (fun _ _ => true)).state.restricted_app_timers =
        [(mkKey 100 "chrome.exe", ⟨130, 100, "chrome.exe", false⟩)] ∧
      (check_restricted_apps
            ⟨["chrome"], [(mkKey 100 "chrome.exe", ⟨0, 100, "chrome.exe", true⟩)], []⟩
            [⟨100, "Chrome.exe"⟩] 130 (fun _ _ => true)).state.restricted_app_timers =
        [] ∧
      (130 : Int) ≠ 0 := by
  decide

/-- C9 amended: re-detection of an already-tracked key neither creates a
duplicate timer (duplicate-free keys are preserved) nor changes the
start_time of the existing timer, and — provided that at this tick the
termination capability reports failure for every tracked timer whose
elapsed time has reached the kill threshold — running reconcile twice
with the same snapshot, policy and now yields the same state as running
it once. When a termination succeeds instead, the first run deletes that
timer and the second run re-creates it with start = now, as the
counterexample shows. -/
theorem C9_reconcile_idempotent_without_kill (st : AgentEnfState)
    (apps : List ProcessInfo) (now : Int) (term : Nat → String → Bool)
    (k : String) (t t' : TimerInfo) (hR : st.restricted_apps ≠ [])
    (hN : (st.restricted_app_timers.map Prod.fst).Nodup)
    (hT : ∀ kv ∈ st.restricted_app_timers,
      120 ≤ now - (kv : String × TimerInfo).2.start_time →
        term kv.2.pid kv.2.name = false)
    (h1 : (k, t) ∈ st.restricted_app_timers)
    (h2 : (k, t') ∈
      (check_restricted_apps st apps now term).state.restricted_app_timers) :
    (check_restricted_apps (check_restricted_apps st apps now term).state apps now
            term).state =
        (check_restricted_apps st apps now term).state ∧
      t'.start_time = t.start_time ∧
      ((check_restricted_apps st apps now term).state.restricted_app_timers.map
          Prod.fst).Nodup := by
  have hkeepcond : ∀ kv ∈ (tickAcc st apps now).timers,
      120 ≤ now - (kv : String × TimerInfo).2.start_time →
        term kv.2.pid kv.2.name = false := by
    intro kv hkv h120
    rcases tickAcc_timers_src st apps now hkv with hsrc | ⟨_, hstart, _⟩
    · exact hT kv hsrc h120
    · rw [hstart, sub_self] at h120
      exact absurd h120 (by norm_num)
  have hs1timers : (check_restricted_apps st apps now term).state.restricted_app_timers =
      (tickAcc st apps now).timers.filterMap
        (timerKeep (tickAcc st apps now).matched now term) := by
    rw [check_state_eq st apps now term hR]
  have hs1R : (check_restricted_apps st apps now term).state.restricted_apps =
      st.restricted_apps := by
    rw [check_state_eq st apps now term hR]
  have hcont : ∀ k2 ∈ snapshotMatched st.restricted_apps apps,
      dictContains
        (check_restricted_apps st apps now term).state.restricted_app_timers k2 =
        true := by
    intro k2 hk2
    have hk2m : k2 ∈ (tickAcc st apps now).matched := by
      rw [tickAcc_matched]
      exact hk2
    rcases dictContains_iff.mp (tickAcc_inv st apps now k2 hk2m) with ⟨u, hu⟩
    rw [hs1timers]
    refine dictContains_iff.mpr
      ⟨warnUpdate now u, List.mem_filterMap.mpr ⟨(k2, u), hu, ?_⟩⟩
    exact timerKeep_keeps (k2, u) hk2m (hkeepcond (k2, u) hu)
  have hnoop := detectPhase_noop
    (check_restricted_apps st apps now term).state.restricted_apps now apps
    ⟨(check_restricted_apps st apps now term).state.restricted_app_timers, [], []⟩
    (fun k2 hk2 => hcont k2 (by rw [hs1R] at hk2; exact hk2))
  have hnoopt :
      (tickAcc (check_restricted_apps st apps now term).state apps now).timers =
        (check_restricted_apps st apps now term).state.restricted_app_timers :=
    hnoop.1
  have hnoope :
      (tickAcc (check_restricted_apps st apps now term).state apps now).events =
        [] :=
    hnoop.2
  have hM2 :
      (tickAcc (check_restricted_apps st apps now term).state apps now).matched =
        snapshotMatched st.restricted_apps apps := by
    rw [tickAcc_matched, hs1R]
  have hfix : ∀ kv ∈ (check_restricted_apps st apps now term).state.restricted_app_timers,
      timerKeep
        (tickAcc (check_restricted_apps st apps now term).state apps now).matched
        now term kv = some kv := by
    intro kv hkv
    rw [hs1timers] at hkv
    rcases List.mem_filterMap.mp hkv with ⟨kv0, h0mem, h0k⟩
    rcases timerKeep_some h0k with ⟨hkey, hval, hm0, hterm0⟩
    have hf0 := warnUpdate_fields now kv0.2
    have hval' : kv.2 = warnUpdate now kv0.2 := hval
    have hcond : 120 ≤ now - kv.2.start_time → term kv.2.pid kv.2.name = false := by
      rw [hval', hf0.1, hf0.2.1, hf0.2.2]
      exact hterm0
    have hmm : kv.1 ∈
        (tickAcc (check_restricted_apps st apps now term).state apps now).matched := by
      rw [hM2]
      have hkey' : kv.1 = kv0.1 := hkey
      rw [hkey']
      rw [tickAcc_matched] at hm0
      exact hm0
    rw [timerKeep_keeps kv hmm hcond, hval', warnUpdate_idem, ← hval']
  have hevs2 :
      (check_restricted_apps st apps now term).state.restricted_app_timers.filterMap
        (timerEvent
          (tickAcc (check_restricted_apps st apps now term).state apps now).matched
          now term) = [] := by
    refine filterMap_eq_nil_of _ _ (fun kv hkv => ?_)
    rw [hs1timers] at hkv
    rcases List.mem_filterMap.mp hkv with ⟨kv0, h0mem, h0k⟩
    rcases timerKeep_some h0k with ⟨hkey, hval, hm0, hterm0⟩
    have hf0 := warnUpdate_fields now kv0.2
    have hval' : kv.2 = warnUpdate now kv0.2 := hval
    refine timerEvent_silent kv ?_
    rw [hval', hf0.1, hf0.2.1, hf0.2.2]
    exact hterm0
  have hR1 : (check_restricted_apps st apps now term).state.restricted_apps ≠ [] := by
    rw [hs1R]
    exact hR
  refine ⟨?_, ?_, ?_⟩
  · rw [check_state_eq (check_restricted_apps st apps now term).state apps now term hR1]
    rw [hnoopt, hnoope]
    rw [filterMap_eq_self_of _ _ hfix, hevs2]
    rw [List.append_nil, List.append_nil]
  · rw [hs1timers] at h2
    rcases List.mem_filterMap.mp h2 with ⟨kv0, h0mem, h0k⟩
    obtain ⟨k0, t0⟩ := kv0
    rcases timerKeep_some h0k with ⟨hkey, hval, _, _⟩
    have hk0 : k = k0 := hkey
    subst hk0
    have hval' : t' = warnUpdate now t0 := hval
    rcases tickAcc_timers_src st apps now h0mem with hsrc | ⟨hcf, _, _⟩
    · have ht0 : t0 = t := keys_nodup_unique hN hsrc h1
      have hf0 := warnUpdate_fields now t0
      rw [hval', hf0.1, ht0]
    · have hcf' : dictContains st.restricted_app_timers k = false := hcf
      have hmem := dictContains_iff.mpr ⟨t, h1⟩
      rw [hcf'] at hmem
      exact Bool.noConfusion hmem
  · rw [hs1timers]
    exact (tickAcc_nodup st apps now hN).sublist
      (timerKeep_keys_sublist _ _ _ _)

/-- C9 witness: the amended theorem applied to a tracked matched timer at
elapsed 65 (below the kill threshold, so only the warned flag changes)
with a termination capability that always fails. -/
theorem C9_witness :
    (check_restricted_apps
          (check_restricted_apps
            ⟨["chrome"], [(mkKey 100 "chrome.exe", ⟨5, 100, "chrome.exe", false⟩)], []⟩
            [⟨100, "Chrome.exe"⟩] 70 (fun _ _ => false)).state
          [⟨100, "Chrome.exe"⟩] 70 (fun _ _ => false)).state =
        (check_restricted_apps
          ⟨["chrome"], [(mkKey 100 "chrome.exe", ⟨5, 100, "chrome.exe", false⟩)], []⟩
          [⟨100, "Chrome.exe"⟩] 70 (fun _ _ => false)).state ∧
      (⟨5, 100, "chrome.exe", true⟩ : TimerInfo).start_time =
        (⟨5, 100, "chrome.exe", false⟩ : TimerInfo).start_time ∧
      ((check_restricted_apps
            ⟨["chrome"], [(mkKey 100 "chrome.exe", ⟨5, 100, "chrome.exe", false⟩)], []⟩
            [⟨100, "Chrome.exe"⟩] 70
            (fun _ _ => false)).state.restricted_app_timers.map Prod.fst).Nodup :=
  C9_reconcile_idempotent_without_kill
    ⟨["chrome"], [(mkKey 100 "chrome.exe", ⟨5, 100, "chrome.exe", false⟩)], []⟩
    [⟨100, "Chrome.exe"⟩] 70 (fun _ _ => false) (mkKey 100 "chrome.exe")
    ⟨5, 100, "chrome.exe", false⟩ ⟨5, 100, "chrome.exe", true⟩ (by decide)
    (by decide) (by decide) (by decide) (by decide)

end ActivTrack
